import Mathlib

/-!
Verification development for the gaspass multi-chain gas aggregation engine.

The TypeScript source is shallowly embedded: JavaScript numbers are modelled
as exact rationals, JavaScript integer timestamps as integers, fallible RPC
calls as Option-valued data supplied per endpoint, and the stable ascending
JavaScript array sort (comparator a - b) as a stable insertion sort.
Hexadecimal RPC quantities are modelled as the natural numbers they decode to.
-/

namespace GasPass

/-- Stable ascending sort by a rational key, the semantics of the JavaScript
sort with comparator a - b (stable since ES2019). -/
def sortByKey {α : Type} (key : α → ℚ) (l : List α) : List α :=
  @List.insertionSort α (fun a b => key a ≤ key b)
    (fun a b => inferInstanceAs (Decidable (key a ≤ key b))) l

/-- Static chain configuration, from lib/chains usage sites: identity, native
token id and symbol, primary endpoint, optional fallback endpoints, family
tag, EIP-1559 flag and Solana swap cost parameters. -/
structure ChainConfig where
  id : String
  name : String
  color : String
  nativeToken : String
  nativeTokenSymbol : String
  rpcUrl : String
  rpcFallbacks : Option (List String)
  chainType : Option String
  isEIP1559 : Option Bool
  signaturesPerSwap : Option ℚ
  computeUnitsPerSwap : Option ℚ
  deriving DecidableEq

/-- An eth_feeHistory response body: base fees per block and reward percentile
rows per block, as the natural numbers the hex strings decode to. The
gas-used field of the response is not modelled (no claim depends on it). -/
structure FeeHistory where
  baseFeePerGas : List Nat
  reward : List (List Nat)
  deriving DecidableEq

/-- parseInt(hex, 16) / 1e9 : wei to gwei. -/
def weiToGwei (w : Nat) : ℚ :=
  (w : ℚ) / 1000000000

/-- reduce((s, t) => s + t, 0) / length, the JS mean of a list. -/
def meanQ (l : List ℚ) : ℚ :=
  l.sum / (l.length : ℚ)

/-- The fee-history-derived gwei value of fetchGasFromRpc: latest base fee
plus the mean of the single requested (50th percentile) reward column r[0]. -/
def feeHistoryGwei (fh : FeeHistory) : ℚ :=
  let baseFees := fh.baseFeePerGas.map weiToGwei
  let tips := fh.reward.map (fun r => weiToGwei (r.headD 0))
  baseFees.getLastD 0 + meanQ tips

/-- fetchGasFromRpc: the representative gwei value of one EVM endpoint
attempt. The eth_gasPrice result is given; a failed eth_feeHistory call is
the none case (caught internally in the source). -/
def fetchGasFromRpc (gasPrice : Nat) (isEIP1559 : Bool) (fh : Option FeeHistory) : ℚ :=
  let gasPriceGwei := weiToGwei gasPrice
  match isEIP1559, fh with
  | true, some h => max (feeHistoryGwei h) gasPriceGwei
  | true, none => gasPriceGwei
  | false, _ => gasPriceGwei

/-- fetchSolanaGas: filter the prioritization fee samples to the strictly
positive ones, sort ascending, return the element at index length / 2 of the
sorted list; an empty sample list or an empty positive subset yields 0. -/
def fetchSolanaGas (fees : List Int) : Int :=
  if fees.length = 0 then 0
  else
    let nonZero := @sortByKey Int (fun f => (f : ℚ)) (fees.filter (fun f => decide (0 < f)))
    if nonZero.length = 0 then 0
    else nonZero.getD (nonZero.length / 2) 0

/-- The observable RPC behaviour of one endpoint: each field is the decoded
result of the corresponding call, none when the call fails. -/
structure EndpointData where
  gasPrice : Option Nat
  feeHistory : Option FeeHistory
  solFees : Option (List Int)
  deriving DecidableEq

/-- chain.chainType === "solana". -/
def isSolana (c : ChainConfig) : Bool :=
  c.chainType = some "solana"

/-- One endpoint attempt of getChainGasGwei: Solana chains resolve through
fetchSolanaGas, EVM chains through fetchGasFromRpc with the EIP-1559 flag
defaulted to true; none is the thrown-and-caught case. -/
def resolveAt (c : ChainConfig) (ep : EndpointData) : Option ℚ :=
  if isSolana c then
    ep.solFees.map (fun l => ((fetchSolanaGas l : Int) : ℚ))
  else
    ep.gasPrice.map (fun gp => fetchGasFromRpc gp (c.isEIP1559.getD true) ep.feeHistory)

/-- The endpoint order of getChainGasGwei: primary first, then the configured
fallbacks. -/
def endpointList (c : ChainConfig) : List String :=
  c.rpcUrl :: c.rpcFallbacks.getD []

/-- getChainGasGwei: try each endpoint in order, return the first successful
result, null when every endpoint fails. -/
def getChainGasGwei (env : String → EndpointData) (c : ChainConfig) : Option ℚ :=
  (endpointList c).findSome? (fun r => resolveAt c (env r))

/-- A low / average / high fee tier triple. -/
structure Tiers where
  low : ℚ
  average : ℚ
  high : ℚ
  deriving DecidableEq

/-- The EVM branch of the gas route GET handler: with a usable fee-history
response on an EIP-1559 chain, each tier is the maximum of the latest base
fee plus the mean tip of one percentile column and a fixed fraction of the
current legacy gas price; otherwise the fixed band around the gas price. -/
def evmTiers (currentGasPrice : ℚ) (isEIP1559 : Bool) (fh : Option FeeHistory) : Tiers :=
  match isEIP1559, fh with
  | true, some h =>
      let baseFee := (h.baseFeePerGas.map weiToGwei).getLastD 0
      let avgLowTip := meanQ (h.reward.map (fun r => weiToGwei (r.getD 0 0)))
      let avgMidTip := meanQ (h.reward.map (fun r => weiToGwei (r.getD 1 0)))
      let avgHighTip := meanQ (h.reward.map (fun r => weiToGwei (r.getD 2 0)))
      { low := max (baseFee + avgLowTip) (currentGasPrice * 0.85)
        average := max (baseFee + avgMidTip) currentGasPrice
        high := max (baseFee + avgHighTip) (currentGasPrice * 1.15) }
  | _, _ =>
      { low := currentGasPrice * 0.85
        average := currentGasPrice
        high := currentGasPrice * 1.15 }

/-- The percentile helper of the gas route: index floor(length * p), clamped
to the last index; 0 on the empty list. -/
def percentileJS (arr : List ℚ) (p : ℚ) : ℚ :=
  if arr.length = 0 then 0
  else arr.getD (min (Int.toNat ⌊(arr.length : ℚ) * p⌋) (arr.length - 1)) 0

/-- The tier triple of handleSolanaGas: the 25th, 50th and 75th percentile of
the ascending-sorted prioritization fee samples, unfiltered. -/
def solanaTiers (fees : List Int) : Tiers :=
  let feeValues := sortByKey id (fees.map (fun f => (f : ℚ)))
  { low := percentileJS feeValues 0.25
    average := percentileJS feeValues 0.5
    high := percentileJS feeValues 0.75 }

/-- The point shape of queryChainHistory: only the average is persisted, low
and high are reconstructed as a fixed band around it on read. -/
structure HistPoint where
  timestamp : ℚ
  low : ℚ
  average : ℚ
  high : ℚ
  deriving DecidableEq

/-- One persisted gas_history row. -/
structure GasRow where
  chain : String
  avg_gwei : ℚ
  swap_cost_usd : ℚ
  token_price : ℚ
  timestamp : ℚ
  deriving DecidableEq

/-- The queryChainHistory row mapping: low and high are the stored average
scaled by 0.85 and 1.15. -/
def histPoint (r : GasRow) : HistPoint :=
  { timestamp := r.timestamp
    low := r.avg_gwei * 0.85
    average := r.avg_gwei
    high := r.avg_gwei * 1.15 }

/-- Key access on a JS object used as a string-keyed record, as an
association list lookup. -/
def lookupStr (t : String) : List (String × ℚ) → Option ℚ
  | [] => none
  | e :: es => if e.1 = t then some e.2 else lookupStr t es

/-- Assignment into a JS object or Map used as a string-keyed record:
overwrite the entry in place when the key is present, append it otherwise. -/
def setPrice (cache : List (String × ℚ)) (t : String) (p : ℚ) : List (String × ℚ) :=
  if cache.any (fun e => decide (e.1 = t)) then
    cache.map (fun e => if e.1 = t then (e.1, p) else e)
  else cache ++ [(t, p)]

/-- The price cache of gas-fetcher: the token price table and the timestamp
of the last successful refresh. -/
structure PriceState where
  cache : List (String × ℚ)
  lastPriceFetch : ℤ
  deriving DecidableEq

/-- The outcome of one batched price request: transport failure, a rate-limit
signal in the body (a status field), or a price object. -/
inductive PriceOutcome where
  | netError : PriceOutcome
  | rateLimited : PriceOutcome
  | ok : List (String × ℚ) → PriceOutcome
  deriving DecidableEq

/-- One token of the success-path cache update of fetchAllPrices: write the
response price when it is present and truthy (nonzero). -/
def priceStep (data : List (String × ℚ)) (c : List (String × ℚ)) (t : String) :
    List (String × ℚ) :=
  match lookupStr t data with
  | some p => if p ≠ 0 then setPrice c t p else c
  | none => c

/-- The success-path cache update of fetchAllPrices over all configured
tokens. -/
def applyPriceData (tokens : List String) (data : List (String × ℚ))
    (cache : List (String × ℚ)) : List (String × ℚ) :=
  tokens.foldl (priceStep data) cache

/-- One call of fetchAllPrices as a state transition; the boolean records
whether a network request was issued. Within the TTL with a populated cache
the call returns at once; otherwise the cache and timestamp are updated only
on a non-rate-limited response. -/
def fetchAllPricesStep (now : ℤ) (tokens : List String) (o : PriceOutcome)
    (s : PriceState) : PriceState × Bool :=
  if now - s.lastPriceFetch < 120000 ∧ 0 < s.lastPriceFetch then (s, false)
  else
    match o with
    | .netError => (s, true)
    | .rateLimited => (s, true)
    | .ok data => ({ cache := applyPriceData tokens data s.cache, lastPriceFetch := now }, true)

/-- The static fallback price table seeding the cache at module load. -/
def FALLBACK_PRICES : List (String × ℚ) :=
  [("ethereum", 2500), ("matic-network", 0.35), ("binancecoin", 600),
   ("avalanche-2", 25), ("berachain-bera", 4), ("xdai", 1), ("mantle", 0.75),
   ("celo", 0.5), ("solana", 150), ("monad", 0.5)]

/-- The price cache at process start: a copy of the fallback table, with no
fetch recorded yet. -/
def initialPriceState : PriceState :=
  { cache := FALLBACK_PRICES, lastPriceFetch := 0 }

/-- Modelled from the spec: the native tokens of the configured chains. The
chain configuration module lib/chains is not part of the snapshot; per the
spec every configured native token is seeded with a static fallback entry,
so the token set is taken as the keys of the fallback table the source seeds
the cache from. -/
def configuredTokens : List String :=
  FALLBACK_PRICES.map Prod.fst

/-- Every listed token has a nonzero price in the cache. -/
def cacheNonzero (tokens : List String) (cache : List (String × ℚ)) : Bool :=
  tokens.all (fun t =>
    match lookupStr t cache with
    | some p => decide (p ≠ 0)
    | none => false)

/-- One per-chain output record of fetchAllChainsGas. -/
structure ChainGasResult where
  chain : String
  name : String
  color : String
  avgGwei : ℚ
  swapCostUsd : ℚ
  tokenPrice : ℚ
  nativeTokenSymbol : String
  chainType : Option String
  deriving DecidableEq

/-- The per-chain record built by fetchAllChainsGas for a resolved chain:
family-specific swap cost, clamped at zero, priced with the cached token
price (0 when absent). The swap gas limit and the Solana base signature fee
are constants of the absent lib/chains module and are passed in. -/
def mkChainResult (swapGasLimit solanaBaseFeeLamports : ℚ) (prices : List (String × ℚ))
    (c : ChainConfig) (avgGwei : ℚ) : ChainGasResult :=
  let tokenPrice := (lookupStr c.nativeToken prices).getD 0
  let swapCostUsd :=
    if isSolana c then
      let sigs := c.signaturesPerSwap.getD 1
      let cu := c.computeUnitsPerSwap.getD 300000
      let baseLamports := solanaBaseFeeLamports * sigs
      let priorityLamports := avgGwei * cu / 1000000
      (baseLamports + priorityLamports) / 1000000000 * tokenPrice
    else
      avgGwei * swapGasLimit / 1000000000 * tokenPrice
  { chain := c.id
    name := c.name
    color := c.color
    avgGwei := avgGwei
    swapCostUsd := max swapCostUsd 0
    tokenPrice := tokenPrice
    nativeTokenSymbol := c.nativeTokenSymbol
    chainType := c.chainType }

/-- fetchAllChainsGas: resolve every configured chain, keep the chains whose
resolver returned a value, and build their records; failed chains are
dropped, not zero-filled. -/
def fetchAllChainsGas (swapGasLimit solanaBaseFeeLamports : ℚ)
    (env : String → EndpointData) (prices : List (String × ℚ))
    (chains : List ChainConfig) : List ChainGasResult :=
  chains.filterMap
    (fun c => (getChainGasGwei env c).map (mkChainResult swapGasLimit solanaBaseFeeLamports prices c))

/-- SQL WHERE timestamp > since ORDER BY timestamp ASC over the history
table, modelled as a filter followed by a stable ascending sort. -/
def sqlSelectWindow (table : List GasRow) (since : ℚ) : List GasRow :=
  sortByKey (fun r => r.timestamp) (table.filter (fun r => decide (since < r.timestamp)))

/-- The grouping step of queryAllChainsHistory: a Map keyed by timestamp in
insertion order, each entry a chain-to-swap-cost record. -/
def addRowToGroup (acc : List (ℚ × List (String × ℚ))) (r : GasRow) :
    List (ℚ × List (String × ℚ)) :=
  if acc.any (fun e => decide (e.1 = r.timestamp)) then
    acc.map (fun e =>
      if e.1 = r.timestamp then (e.1, setPrice e.2 r.chain r.swap_cost_usd) else e)
  else acc ++ [(r.timestamp, [(r.chain, r.swap_cost_usd)])]

/-- Uniform stride downsampling: above 200 points keep the indices divisible
by ceil(length / 200). -/
def downsample {α : Type} (points : List α) : List α :=
  if 200 < points.length then
    let step := (points.length + 199) / 200
    (points.enum.filter (fun p => decide (p.1 % step = 0))).map Prod.snd
  else points

/-- queryAllChainsHistory: window the table, group rows by timestamp into
per-chain swap cost records, and downsample. -/
def queryAllChainsHistory (table : List GasRow) (now : ℚ) (hours : ℚ) :
    List (ℚ × List (String × ℚ)) :=
  let since := now - hours * 3600000
  let rows := sqlSelectWindow table since
  if rows.length = 0 then [] else downsample (rows.foldl addRowToGroup [])

/-- queryChainHistory: window the rows of one chain, rebuild the tier band
around the stored average, and downsample. -/
def queryChainHistory (table : List GasRow) (chain : String) (now : ℚ) (hours : ℚ) :
    List HistPoint :=
  let since := now - hours * 3600000
  let rows := sortByKey (fun r => r.timestamp)
    (table.filter (fun r => decide (r.chain = chain) && decide (since < r.timestamp)))
  if rows.length = 0 then [] else downsample (rows.map histPoint)

/-- The history route clamp of the hours parameter: between 0.1 and 168. -/
def effectiveHours (h : ℚ) : ℚ :=
  min (max h 0.1) 168

theorem sortByKey_perm {α : Type} (key : α → ℚ) (l : List α) : (sortByKey key l).Perm l :=
  List.perm_insertionSort _ l

theorem sortByKey_sorted {α : Type} (key : α → ℚ) (l : List α) :
    (sortByKey key l).Pairwise (fun a b => key a ≤ key b) :=
  @List.sorted_insertionSort α (fun a b => key a ≤ key b)
    (fun a b => inferInstanceAs (Decidable (key a ≤ key b)))
    ⟨fun a b => le_total (key a) (key b)⟩ ⟨fun _ _ _ hab hbc => le_trans hab hbc⟩ l

theorem sortByKey_length {α : Type} (key : α → ℚ) (l : List α) :
    (sortByKey key l).length = l.length :=
  (sortByKey_perm key l).length_eq

theorem getLastD_map_weiToGwei : ∀ (l : List Nat) (d : Nat),
    (l.map weiToGwei).getLastD (weiToGwei d) = weiToGwei (l.getLastD d)
  | [], _ => rfl
  | a :: l, d => by
      rw [List.map_cons, List.getLastD_cons, List.getLastD_cons, getLastD_map_weiToGwei l a]

theorem sum_map_weiToGwei {α : Type} (f : α → Nat) : ∀ l : List α,
    (l.map (fun a => weiToGwei (f a))).sum = (l.map (fun a => ((f a : Nat) : ℚ))).sum / 1000000000
  | [] => by simp
  | a :: l => by
      rw [List.map_cons, List.map_cons, List.sum_cons, List.sum_cons,
        sum_map_weiToGwei f l, weiToGwei, add_div]

/-- The latest base fee of a fee-history window, in gwei, as the spec words
it: the last entry of the base fee list. -/
def specLatestBaseFee (fh : FeeHistory) : ℚ :=
  weiToGwei (fh.baseFeePerGas.getLastD 0)

/-- The mean 50th-percentile tip of a fee-history window, in gwei, as the
spec words it: the mean of the single requested reward column. -/
def specMeanP50Tip (fh : FeeHistory) : ℚ :=
  ((fh.reward.map (fun r => ((r.headD 0 : Nat) : ℚ))).sum / (fh.reward.length : ℚ)) / 1000000000

theorem feeHistoryGwei_eq_spec (fh : FeeHistory) :
    feeHistoryGwei fh = specLatestBaseFee fh + specMeanP50Tip fh := by
  have hbase : (fh.baseFeePerGas.map weiToGwei).getLastD 0 = specLatestBaseFee fh := by
    have h0 : (0 : ℚ) = weiToGwei 0 := by simp [weiToGwei]
    rw [specLatestBaseFee, h0, getLastD_map_weiToGwei]
  have htips : meanQ (fh.reward.map (fun r => weiToGwei (r.headD 0))) = specMeanP50Tip fh := by
    rw [meanQ, sum_map_weiToGwei (fun r => r.headD 0) fh.reward, specMeanP50Tip,
      List.length_map, div_right_comm]
  rw [feeHistoryGwei, hbase, htips]

/-- C1: for an EVM chain with EIP-1559 enabled whose eth_gasPrice and
eth_feeHistory calls both succeed, the per-endpoint representative value is
the maximum of the legacy gas price and the latest base fee plus the mean
50th-percentile tip; when the fee-history call fails or the chain is not
EIP-1559, it is the legacy gas price alone. -/
theorem evm_representative_is_max (c : ChainConfig) (ep : EndpointData) (gp : Nat)
    (hsol : isSolana c = false) (hgp : ep.gasPrice = some gp) :
    (c.isEIP1559 = some true → ∀ fh, ep.feeHistory = some fh →
        resolveAt c ep = some (max (weiToGwei gp) (specLatestBaseFee fh + specMeanP50Tip fh)))
    ∧ (c.isEIP1559 = some true → ep.feeHistory = none →
        resolveAt c ep = some (weiToGwei gp))
    ∧ (c.isEIP1559 = some false →
        resolveAt c ep = some (weiToGwei gp)) := by
  refine ⟨fun h1559 fh hfh => ?_, fun h1559 hfh => ?_, fun h1559 => ?_⟩
  · simp [resolveAt, hsol, hgp, hfh, h1559, fetchGasFromRpc, feeHistoryGwei_eq_spec, max_comm]
  · simp [resolveAt, hsol, hgp, hfh, h1559, fetchGasFromRpc]
  · simp [resolveAt, hsol, hgp, h1559, fetchGasFromRpc]

/-- Closed instance of the C1 theorem at a concrete chain and endpoint. -/
theorem evm_representative_is_max_witness :
    resolveAt
        { id := "ethereum", name := "Ethereum", color := "#627eea",
          nativeToken := "ethereum", nativeTokenSymbol := "ETH",
          rpcUrl := "r1", rpcFallbacks := some [], chainType := none,
          isEIP1559 := some true, signaturesPerSwap := none, computeUnitsPerSwap := none }
        { gasPrice := some 22000000000,
          feeHistory := some { baseFeePerGas := [20000000000], reward := [[2000000000]] },
          solFees := none }
      = some (max (weiToGwei 22000000000)
          (specLatestBaseFee { baseFeePerGas := [20000000000], reward := [[2000000000]] }
            + specMeanP50Tip { baseFeePerGas := [20000000000], reward := [[2000000000]] })) := by
  have h := evm_representative_is_max
    { id := "ethereum", name := "Ethereum", color := "#627eea",
      nativeToken := "ethereum", nativeTokenSymbol := "ETH",
      rpcUrl := "r1", rpcFallbacks := some [], chainType := none,
      isEIP1559 := some true, signaturesPerSwap := none, computeUnitsPerSwap := none }
    { gasPrice := some 22000000000,
      feeHistory := some { baseFeePerGas := [20000000000], reward := [[2000000000]] },
      solFees := none }
    22000000000 (by decide) rfl
  exact h.1 rfl _ rfl

/-- The median of a list of rationals in the standard statistical sense: the
middle element of the ascending sort for odd length, the mean of the two
middle elements for even length, 0 for the empty list. -/
def mathMedian (l : List ℚ) : ℚ :=
  let s := sortByKey id l
  if s.length % 2 = 1 then s.getD (s.length / 2) 0
  else (s.getD (s.length / 2 - 1) 0 + s.getD (s.length / 2) 0) / 2

/-- C2 counterexample: on the samples 2 and 4 the resolver returns 4, the
upper of the two middle samples, while the median of the strictly-positive
subset is 3, so the resolved value does not equal that median. -/
theorem solana_median_counterexample :
    fetchSolanaGas [2, 4] = 4
    ∧ mathMedian ((([2, 4] : List Int).filter (fun f => decide (0 < f))).map (fun f => (f : ℚ))) = 3
    ∧ ¬ ((fetchSolanaGas [2, 4] : ℚ)
          = mathMedian ((([2, 4] : List Int).filter (fun f => decide (0 < f))).map (fun f => (f : ℚ)))) := by
  refine ⟨?_, ?_, ?_⟩ <;>
    norm_num [fetchSolanaGas, mathMedian, sortByKey, List.insertionSort, List.orderedInsert]

/-- C2 as amended: the resolved Solana representative value is the element at
index length / 2 of the ascending-sorted strictly-positive subset of the
samples (the median for odd-sized subsets, the upper of the two middle
samples for even-sized ones), 0 when that subset or the sample list is
empty; it is never negative, and the chain resolves to null exactly when the
prioritization-fee call fails on every endpoint. -/
theorem solana_median_resolution (fees : List Int) (env : String → EndpointData)
    (c : ChainConfig) (hsol : isSolana c = true) :
    (fetchSolanaGas fees =
      (if fees.filter (fun f => decide (0 < f)) = [] then 0
       else (@sortByKey Int (fun f => (f : ℚ)) (fees.filter (fun f => decide (0 < f)))).getD
         ((fees.filter (fun f => decide (0 < f))).length / 2) 0))
    ∧ 0 ≤ fetchSolanaGas fees
    ∧ (getChainGasGwei env c = none ↔ ∀ r ∈ endpointList c, (env r).solFees = none) := by
  have hlen : (@sortByKey Int (fun f => (f : ℚ)) (fees.filter (fun f => decide (0 < f)))).length
      = (fees.filter (fun f => decide (0 < f))).length := sortByKey_length _ _
  refine ⟨?_, ?_, ?_⟩
  · by_cases h0 : fees.length = 0
    · have : fees = [] := List.length_eq_zero.mp h0
      subst this
      simp [fetchSolanaGas]
    · rw [fetchSolanaGas, if_neg h0]
      by_cases hp : (fees.filter (fun f => decide (0 < f))).length = 0
      · rw [if_pos (by rw [hlen]; exact hp), if_pos (List.length_eq_zero.mp hp)]
      · rw [if_neg (by rw [hlen]; exact hp),
          if_neg (fun he => hp (by rw [he]; rfl)), hlen]
  · by_cases h0 : fees.length = 0
    · rw [fetchSolanaGas, if_pos h0]
    · rw [fetchSolanaGas, if_neg h0]
      by_cases hp : (@sortByKey Int (fun f => (f : ℚ))
          (fees.filter (fun f => decide (0 < f)))).length = 0
      · rw [if_pos hp]
      · rw [if_neg hp]
        have hk : (@sortByKey Int (fun f => (f : ℚ))
            (fees.filter (fun f => decide (0 < f)))).length / 2
            < (@sortByKey Int (fun f => (f : ℚ))
                (fees.filter (fun f => decide (0 < f)))).length :=
          Nat.div_lt_self (Nat.pos_of_ne_zero hp) (by norm_num)
        rw [List.getD_eq_getElem _ _ hk]
        have hmem := List.getElem_mem hk
        have hmem2 := (sortByKey_perm (fun f => ((f : Int) : ℚ))
          (fees.filter (fun f => decide (0 < f)))).mem_iff.mp hmem
        have hpos := List.of_mem_filter hmem2
        exact le_of_lt (of_decide_eq_true hpos)
  · rw [getChainGasGwei]
    rw [List.findSome?_eq_none_iff]
    constructor
    · intro h r hr
      have := h r hr
      simpa [resolveAt, hsol] using this
    · intro h r hr
      simp [resolveAt, hsol, h r hr]

/-- Closed instance of the amended C2 theorem: the spec scenario samples
resolve to a nonnegative value, and a Solana chain whose every endpoint
fails resolves to null. -/
theorem solana_median_resolution_witness :
    0 ≤ fetchSolanaGas [0, 0, 5, 10, 15]
    ∧ getChainGasGwei (fun _ => { gasPrice := none, feeHistory := none, solFees := none })
        { id := "solana", name := "Solana", color := "#9945ff",
          nativeToken := "solana", nativeTokenSymbol := "SOL",
          rpcUrl := "s1", rpcFallbacks := some ["s2"], chainType := some "solana",
          isEIP1559 := none, signaturesPerSwap := some 1, computeUnitsPerSwap := some 300000 }
      = none := by
  have h := solana_median_resolution [0, 0, 5, 10, 15]
    (fun _ => { gasPrice := none, feeHistory := none, solFees := none })
    { id := "solana", name := "Solana", color := "#9945ff",
      nativeToken := "solana", nativeTokenSymbol := "SOL",
      rpcUrl := "s1", rpcFallbacks := some ["s2"], chainType := some "solana",
      isEIP1559 := none, signaturesPerSwap := some 1, computeUnitsPerSwap := some 300000 }
    (by decide)
  exact ⟨h.2.1, h.2.2.mpr (fun r _ => rfl)⟩

theorem resolveAt_single_endpoint (c : ChainConfig) (r : String) (ep : EndpointData) :
    resolveAt { c with rpcUrl := r, rpcFallbacks := some [] } ep = resolveAt c ep := rfl

/-- C3: the resolver tries the primary endpoint and then each fallback in
configured order and returns the first successful result; that result equals
what resolving against the succeeding endpoint alone produces, and the
resolver returns null exactly when every endpoint fails. -/
theorem resolver_fallback_order (env : String → EndpointData) (c : ChainConfig) :
    (getChainGasGwei env c = none ↔ ∀ r ∈ endpointList c, resolveAt c (env r) = none)
    ∧ (∀ pre r post v, endpointList c = pre ++ r :: post →
        (∀ r2 ∈ pre, resolveAt c (env r2) = none) →
        resolveAt c (env r) = some v →
        getChainGasGwei env c = some v
        ∧ getChainGasGwei env { c with rpcUrl := r, rpcFallbacks := some [] } = some v) := by
  constructor
  · exact List.findSome?_eq_none_iff
  · intro pre r post v hsplit hpre hr
    constructor
    · rw [getChainGasGwei, hsplit, List.findSome?_append,
        List.findSome?_eq_none_iff.mpr hpre, Option.none_or, List.findSome?_cons, hr]
    · rw [getChainGasGwei]
      show List.findSome? _ [r] = some v
      rw [List.findSome?_cons, resolveAt_single_endpoint, hr]

/-- Closed instance of the C3 theorem: with a failing primary endpoint and a
succeeding first fallback, the resolver returns the fallback result. -/
theorem resolver_fallback_order_witness :
    getChainGasGwei
        (fun r => if r = "f1"
          then { gasPrice := some 30000000000, feeHistory := none, solFees := none }
          else { gasPrice := none, feeHistory := none, solFees := none })
        { id := "gnosis", name := "Gnosis", color := "#3e6957",
          nativeToken := "xdai", nativeTokenSymbol := "xDAI",
          rpcUrl := "p", rpcFallbacks := some ["f1"], chainType := none,
          isEIP1559 := some false, signaturesPerSwap := none, computeUnitsPerSwap := none }
      = some 30 := by
  have h := resolver_fallback_order
    (fun r => if r = "f1"
      then { gasPrice := some 30000000000, feeHistory := none, solFees := none }
      else { gasPrice := none, feeHistory := none, solFees := none })
    { id := "gnosis", name := "Gnosis", color := "#3e6957",
      nativeToken := "xdai", nativeTokenSymbol := "xDAI",
      rpcUrl := "p", rpcFallbacks := some ["f1"], chainType := none,
      isEIP1559 := some false, signaturesPerSwap := none, computeUnitsPerSwap := none }
  refine (h.2 ["p"] "f1" [] 30 rfl ?_ ?_).1
  · intro r2 hr2
    simp only [List.mem_singleton] at hr2
    subst hr2
    rfl
  · show some (fetchGasFromRpc 30000000000 false none) = some 30
    norm_num [fetchGasFromRpc, weiToGwei]

/-- C4: for an EIP-1559 chain, whatever the fee-history content (including a
failed fee-history call), the computed tiers satisfy average at least the
current gas price, low at least 0.85 of it and high at least 1.15 of it, and
with a fee-history response each tier is the maximum of a
base-fee-plus-percentile-tip value and the corresponding fixed fraction of
the current gas price. -/
theorem evm_tier_floors (cur : ℚ) (fh : Option FeeHistory) :
    cur ≤ (evmTiers cur true fh).average
    ∧ cur * 0.85 ≤ (evmTiers cur true fh).low
    ∧ cur * 1.15 ≤ (evmTiers cur true fh).high
    ∧ ∀ h : FeeHistory, ∃ b t10 t50 t90,
        evmTiers cur true (some h) =
          { low := max (b + t10) (cur * 0.85)
            average := max (b + t50) cur
            high := max (b + t90) (cur * 1.15) } := by
  refine ⟨?_, ?_, ?_, fun h => ⟨_, _, _, _, rfl⟩⟩ <;>
    cases fh with
    | none => simp [evmTiers]
    | some h => simp only [evmTiers]; exact le_max_right _ _

/-- C6 counterexample: the Solana gas handler derives its tiers as the 25th,
50th and 75th percentile of the samples, not as a fixed band around the
average: on the samples 0, 10, 20, 30, 100 it produces low 10, average 20,
high 30, and 10 is not 20 * 0.85. -/
theorem tier_band_counterexample :
    solanaTiers [0, 10, 20, 30, 100] = { low := 10, average := 20, high := 30 }
    ∧ (solanaTiers [0, 10, 20, 30, 100]).low
        ≠ (solanaTiers [0, 10, 20, 30, 100]).average * 0.85 := by
  have h : solanaTiers [0, 10, 20, 30, 100] = { low := 10, average := 20, high := 30 } := by
    norm_num [solanaTiers, sortByKey, List.insertionSort, List.orderedInsert, percentileJS]
    decide
  refine ⟨h, ?_⟩
  rw [h]
  norm_num

/-- C6 amended: for an EVM chain with no usable fee-history (non-EIP-1559
chain or failed fee-history call) the tiers are synthesized as exactly the
average scaled by 0.85, 1.0 and 1.15, the identical band is applied when
reconstructing low and high from the stored average of a persisted history
row, and a legacy chain at gas price 30 gwei yields tiers 25.5, 30 and 34.5
gwei; the live Solana handler instead derives its tiers as the 25th, 50th
and 75th percentile of the fee samples. -/
theorem fallback_tier_band (cur : ℚ) (e : Bool) (fh : Option FeeHistory) (row : GasRow) :
    evmTiers cur e none = { low := cur * 0.85, average := cur, high := cur * 1.15 }
    ∧ evmTiers cur false fh = { low := cur * 0.85, average := cur, high := cur * 1.15 }
    ∧ histPoint row
        = { timestamp := row.timestamp
            low := row.avg_gwei * 0.85
            average := row.avg_gwei
            high := row.avg_gwei * 1.15 }
    ∧ evmTiers 30 false none = { low := 25.5, average := 30, high := 34.5 } := by
  refine ⟨?_, ?_, rfl, ?_⟩
  · cases e <;> rfl
  · cases fh <;> rfl
  · show Tiers.mk (30 * 0.85) 30 (30 * 1.15) = { low := 25.5, average := 30, high := 34.5 }
    norm_num


theorem lookup_map_overwrite_ne (t t2 : String) (p : ℚ) (h : t2 ≠ t) :
    ∀ c : List (String × ℚ),
      lookupStr t2 (c.map (fun e => if e.1 = t then (e.1, p) else e)) = lookupStr t2 c
  | [] => rfl
  | e :: es => by
      have h3 : ¬ (t = t2) := fun hc => h hc.symm
      by_cases he : e.1 = t
      · have h2 : ¬ (e.1 = t2) := fun hc => h (hc.symm.trans he)
        simp [lookupStr, he, h2, h3, lookup_map_overwrite_ne t t2 p h es]
      · by_cases h2 : e.1 = t2
        · simp [lookupStr, he, h2, h]
        · simp [lookupStr, he, h2, lookup_map_overwrite_ne t t2 p h es]

theorem lookup_map_overwrite_self (t : String) (p : ℚ) :
    ∀ c : List (String × ℚ), c.any (fun e => decide (e.1 = t)) = true →
      lookupStr t (c.map (fun e => if e.1 = t then (e.1, p) else e)) = some p
  | [], h => by simp at h
  | e :: es, h => by
      by_cases he : e.1 = t
      · simp [lookupStr, he]
      · have hes : es.any (fun e => decide (e.1 = t)) = true := by
          simpa [List.any_cons, he] using h
        simp [lookupStr, he, lookup_map_overwrite_self t p es hes]

theorem lookup_eq_none_of_not_any (t : String) :
    ∀ c : List (String × ℚ), c.any (fun e => decide (e.1 = t)) = false → lookupStr t c = none
  | [], _ => rfl
  | e :: es, h => by
      have he : ¬ (e.1 = t) := by
        intro hc
        simp [List.any_cons, hc] at h
      have hes : es.any (fun e => decide (e.1 = t)) = false := by
        simpa [List.any_cons, he] using h
      simp [lookupStr, he, lookup_eq_none_of_not_any t es hes]

theorem lookup_append_pair (t : String) (d : List (String × ℚ)) :
    ∀ c : List (String × ℚ), lookupStr t (c ++ d) = ((lookupStr t c).or (lookupStr t d))
  | [] => rfl
  | e :: es => by
      by_cases ht : e.1 = t
      · simp [lookupStr, ht]
      · simp [lookupStr, ht, lookup_append_pair t d es]

theorem lookup_setPrice_self (c : List (String × ℚ)) (t : String) (p : ℚ) :
    lookupStr t (setPrice c t p) = some p := by
  rw [setPrice]
  by_cases hany : c.any (fun e => decide (e.1 = t)) = true
  · rw [if_pos hany, lookup_map_overwrite_self t p c hany]
  · rw [if_neg hany, lookup_append_pair,
      lookup_eq_none_of_not_any t c (Bool.not_eq_true _ ▸ hany)]
    simp [lookupStr]

theorem lookup_setPrice_ne (c : List (String × ℚ)) (t t2 : String) (p : ℚ) (h : t2 ≠ t) :
    lookupStr t2 (setPrice c t p) = lookupStr t2 c := by
  rw [setPrice]
  by_cases hany : c.any (fun e => decide (e.1 = t)) = true
  · rw [if_pos hany, lookup_map_overwrite_ne t t2 p h c]
  · rw [if_neg hany, lookup_append_pair]
    have h3 : ¬ (t = t2) := fun hc => h hc.symm
    simp [lookupStr, h3]

theorem priceStep_absent (data c : List (String × ℚ)) (t : String)
    (hl : lookupStr t data = none) : priceStep data c t = c := by
  rw [priceStep, hl]

theorem priceStep_pos (data c : List (String × ℚ)) (t : String) (p : ℚ)
    (hl : lookupStr t data = some p) (hp : p ≠ 0) :
    priceStep data c t = setPrice c t p := by
  rw [priceStep, hl]
  exact if_pos hp

theorem priceStep_zero (data c : List (String × ℚ)) (t : String) (p : ℚ)
    (hl : lookupStr t data = some p) (hp : ¬ p ≠ 0) :
    priceStep data c t = c := by
  rw [priceStep, hl]
  exact if_neg hp

theorem applyPriceData_lookup_absent (data : List (String × ℚ)) (t : String)
    (hd : lookupStr t data = none) :
    ∀ (tokens : List String) (c : List (String × ℚ)),
      lookupStr t (applyPriceData tokens data c) = lookupStr t c
  | [], _ => rfl
  | t0 :: ts, c => by
      rw [applyPriceData, List.foldl_cons]
      have step : ∀ c2 : List (String × ℚ),
          lookupStr t (applyPriceData ts data c2) = lookupStr t c2 :=
        fun c2 => applyPriceData_lookup_absent data t hd ts c2
      show lookupStr t (applyPriceData ts data (priceStep data c t0)) = lookupStr t c
      cases hl : lookupStr t0 data with
      | none => rw [priceStep_absent data c t0 hl]; exact step c
      | some p =>
          have hne : t ≠ t0 := fun hc => by rw [hc, hl] at hd; exact Option.noConfusion hd
          by_cases hp : p ≠ 0
          · rw [priceStep_pos data c t0 p hl hp, step (setPrice c t0 p),
              lookup_setPrice_ne c t0 t p hne]
          · rw [priceStep_zero data c t0 p hl hp]
            exact step c

theorem applyPriceData_lookup_stable (data : List (String × ℚ)) (t : String) (p : ℚ)
    (hd : lookupStr t data = some p) :
    ∀ (tokens : List String) (c : List (String × ℚ)), lookupStr t c = some p →
      lookupStr t (applyPriceData tokens data c) = some p
  | [], _, hc => hc
  | t0 :: ts, c, hc => by
      rw [applyPriceData, List.foldl_cons]
      have step : ∀ c2 : List (String × ℚ), lookupStr t c2 = some p →
          lookupStr t (applyPriceData ts data c2) = some p :=
        fun c2 => applyPriceData_lookup_stable data t p hd ts c2
      show lookupStr t (applyPriceData ts data (priceStep data c t0)) = some p
      by_cases he : t0 = t
      · subst he
        by_cases hp : p ≠ 0
        · rw [priceStep_pos data c t0 p hd hp]
          exact step _ (lookup_setPrice_self c t0 p)
        · rw [priceStep_zero data c t0 p hd hp]
          exact step c hc
      · cases hl : lookupStr t0 data with
        | none => rw [priceStep_absent data c t0 hl]; exact step c hc
        | some q =>
            by_cases hq : q ≠ 0
            · rw [priceStep_pos data c t0 q hl hq]
              refine step _ ?_
              rw [lookup_setPrice_ne c t0 t q (fun hc2 => he hc2.symm)]
              exact hc
            · rw [priceStep_zero data c t0 q hl hq]
              exact step c hc

theorem applyPriceData_lookup_mem (data : List (String × ℚ)) (t : String) (p : ℚ)
    (hd : lookupStr t data = some p) (hp : p ≠ 0) :
    ∀ (tokens : List String) (c : List (String × ℚ)), t ∈ tokens →
      lookupStr t (applyPriceData tokens data c) = some p
  | [], _, ht => absurd ht (List.not_mem_nil t)
  | t0 :: ts, c, ht => by
      rw [applyPriceData, List.foldl_cons]
      show lookupStr t (applyPriceData ts data (priceStep data c t0)) = some p
      by_cases he : t0 = t
      · subst he
        rw [priceStep_pos data c t0 p hd hp]
        exact applyPriceData_lookup_stable data t0 p hd ts _ (lookup_setPrice_self c t0 p)
      · have hts : t ∈ ts := by
          cases List.mem_cons.mp ht with
          | inl h => exact absurd h.symm he
          | inr h => exact h
        cases hl : lookupStr t0 data with
        | none => rw [priceStep_absent data c t0 hl]; exact applyPriceData_lookup_mem data t p hd hp ts c hts
        | some q =>
            by_cases hq : q ≠ 0
            · rw [priceStep_pos data c t0 q hl hq]
              exact applyPriceData_lookup_mem data t p hd hp ts _ hts
            · rw [priceStep_zero data c t0 q hl hq]
              exact applyPriceData_lookup_mem data t p hd hp ts c hts

/-- C8: a refresh attempt that fails with a network error or a rate-limit
signal leaves the cache untouched and does not advance the refresh
timestamp; a successful refresh advances the timestamp and updates exactly
the configured tokens present with a truthy price in the response, leaving
every other entry unchanged. -/
theorem price_refresh_updates (now : ℤ) (tokens : List String) (s : PriceState)
    (data : List (String × ℚ))
    (hstale : ¬ (now - s.lastPriceFetch < 120000 ∧ 0 < s.lastPriceFetch)) :
    fetchAllPricesStep now tokens .netError s = (s, true)
    ∧ fetchAllPricesStep now tokens .rateLimited s = (s, true)
    ∧ (fetchAllPricesStep now tokens (.ok data) s).1.lastPriceFetch = now
    ∧ (∀ t, lookupStr t data = none →
        lookupStr t (fetchAllPricesStep now tokens (.ok data) s).1.cache
          = lookupStr t s.cache)
    ∧ (∀ t p, t ∈ tokens → lookupStr t data = some p → p ≠ 0 →
        lookupStr t (fetchAllPricesStep now tokens (.ok data) s).1.cache = some p) := by
  refine ⟨?_, ?_, ?_, fun t ht => ?_, fun t p ht hd hp => ?_⟩
  · rw [fetchAllPricesStep, if_neg hstale]
  · rw [fetchAllPricesStep, if_neg hstale]
  · rw [fetchAllPricesStep, if_neg hstale]
  · rw [fetchAllPricesStep, if_neg hstale]
    exact applyPriceData_lookup_absent data t ht tokens s.cache
  · rw [fetchAllPricesStep, if_neg hstale]
    exact applyPriceData_lookup_mem data t p hd hp tokens s.cache ht

/-- Closed instance of the C8 theorem: from a stale cache, a failed refresh
changes nothing, and a successful refresh updates the fetched token, keeps
the missing one, and advances the timestamp. -/
theorem price_refresh_updates_witness :
    fetchAllPricesStep 200000 ["ethereum", "solana"] .netError
        { cache := [("ethereum", 2500), ("solana", 150)], lastPriceFetch := 1 }
      = ({ cache := [("ethereum", 2500), ("solana", 150)], lastPriceFetch := 1 }, true)
    ∧ (fetchAllPricesStep 200000 ["ethereum", "solana"] (.ok [("ethereum", 3000)])
        { cache := [("ethereum", 2500), ("solana", 150)], lastPriceFetch := 1 }).1.lastPriceFetch
      = 200000
    ∧ lookupStr "solana" (fetchAllPricesStep 200000 ["ethereum", "solana"]
        (.ok [("ethereum", 3000)])
        { cache := [("ethereum", 2500), ("solana", 150)], lastPriceFetch := 1 }).1.cache
      = some 150
    ∧ lookupStr "ethereum" (fetchAllPricesStep 200000 ["ethereum", "solana"]
        (.ok [("ethereum", 3000)])
        { cache := [("ethereum", 2500), ("solana", 150)], lastPriceFetch := 1 }).1.cache
      = some 3000 := by
  have h := price_refresh_updates 200000 ["ethereum", "solana"]
    { cache := [("ethereum", 2500), ("solana", 150)], lastPriceFetch := 1 }
    [("ethereum", 3000)] (by decide)
  refine ⟨h.1, h.2.2.1, ?_, ?_⟩
  · rw [h.2.2.2.1 "solana" (by simp [lookupStr])]
    simp [lookupStr]
  · exact h.2.2.2.2 "ethereum" 3000 (by simp) (by simp [lookupStr]) (by norm_num)

/-- C7 counterexample: two calls one time unit apart, both failing with a
network error, each issue a network request, so a pair of calls within one
TTL window can issue two network requests when the first refresh fails. -/
theorem price_cache_ttl_counterexample :
    (fetchAllPricesStep 1 ["ethereum"] .netError
        { cache := [("ethereum", 2500)], lastPriceFetch := 0 }).2 = true
    ∧ (fetchAllPricesStep 2 ["ethereum"] .netError
        (fetchAllPricesStep 1 ["ethereum"] .netError
          { cache := [("ethereum", 2500)], lastPriceFetch := 0 }).1).2 = true
    ∧ ((2 : ℤ) - 1 < 120000) := by
  refine ⟨rfl, rfl, by decide⟩

/-- C7 as amended: within one TTL window at most one call issues a network
request whose refresh succeeds: a call whose cache age is within TTL and
whose cache has been populated returns the cache unchanged with no network
call, and after a request with a successful response any second call within
the TTL returns the new state unchanged with no network call; only a failed
refresh leaves the timestamp alone so that the next call retries. -/
theorem price_cache_ttl_idempotence (now t1 t2 : ℤ) (tokens tks2 : List String)
    (o1 o2 : PriceOutcome) (s : PriceState) (data : List (String × ℚ)) :
    (now - s.lastPriceFetch < 120000 ∧ 0 < s.lastPriceFetch →
        fetchAllPricesStep now tokens o1 s = (s, false))
    ∧ (0 < t1 → t1 ≤ t2 → t2 - t1 < 120000 →
        (fetchAllPricesStep t1 tokens (.ok data) s).2 = true →
        fetchAllPricesStep t2 tks2 o2 (fetchAllPricesStep t1 tokens (.ok data) s).1
          = ((fetchAllPricesStep t1 tokens (.ok data) s).1, false)) := by
  constructor
  · intro hfresh
    rw [fetchAllPricesStep.eq_def, if_pos hfresh]
  · intro h1 h12 h2 hreq
    by_cases hc : t1 - s.lastPriceFetch < 120000 ∧ 0 < s.lastPriceFetch
    · rw [fetchAllPricesStep.eq_def, if_pos hc] at hreq
      exact absurd hreq (by simp)
    · have hs1 : (fetchAllPricesStep t1 tokens (.ok data) s).1
          = { cache := applyPriceData tokens data s.cache, lastPriceFetch := t1 } := by
        rw [fetchAllPricesStep.eq_def, if_neg hc]
      rw [hs1, fetchAllPricesStep.eq_def, if_pos ?_]
      constructor
      · show t2 - t1 < 120000
        exact h2
      · exact h1

/-- Closed instance of the amended C7 theorem: a fresh cache returns with no
network call, and a second call right after a successful refresh returns the
refreshed state with no network call. -/
theorem price_cache_ttl_idempotence_witness :
    fetchAllPricesStep 10 ["ethereum"] .netError
        { cache := [("ethereum", 2500)], lastPriceFetch := 5 }
      = ({ cache := [("ethereum", 2500)], lastPriceFetch := 5 }, false)
    ∧ fetchAllPricesStep 2 [] .netError
        (fetchAllPricesStep 1 ["ethereum"] (.ok [("ethereum", 3000)])
          { cache := [("ethereum", 2500)], lastPriceFetch := 0 }).1
      = ((fetchAllPricesStep 1 ["ethereum"] (.ok [("ethereum", 3000)])
          { cache := [("ethereum", 2500)], lastPriceFetch := 0 }).1, false) := by
  constructor
  · exact (price_cache_ttl_idempotence 10 1 2 ["ethereum"] [] .netError .netError
      { cache := [("ethereum", 2500)], lastPriceFetch := 5 } []).1 (by decide)
  · exact (price_cache_ttl_idempotence 10 1 2 ["ethereum"] [] .netError .netError
      { cache := [("ethereum", 2500)], lastPriceFetch := 0 } [("ethereum", 3000)]).2
      (by decide) (by decide) (by decide) rfl

theorem cacheNonzero_iff (ts : List String) (c : List (String × ℚ)) :
    cacheNonzero ts c = true ↔ ∀ t ∈ ts, ∃ p, lookupStr t c = some p ∧ p ≠ 0 := by
  rw [cacheNonzero, List.all_eq_true]
  refine forall_congr' fun t => forall_congr' fun ht => ?_
  cases hc : lookupStr t c with
  | none => simp
  | some p => simp [decide_eq_true_iff]

theorem applyPriceData_lookup_cases (data : List (String × ℚ)) (t : String) :
    ∀ (tokens : List String) (c : List (String × ℚ)),
      lookupStr t (applyPriceData tokens data c) = lookupStr t c
      ∨ ∃ q, lookupStr t (applyPriceData tokens data c) = some q ∧ q ≠ 0
  | [], _ => Or.inl rfl
  | t0 :: ts, c => by
      rw [applyPriceData, List.foldl_cons]
      show lookupStr t (applyPriceData ts data (priceStep data c t0)) = lookupStr t c
        ∨ ∃ q, lookupStr t (applyPriceData ts data (priceStep data c t0)) = some q ∧ q ≠ 0
      cases hl : lookupStr t0 data with
      | none =>
          rw [priceStep_absent data c t0 hl]
          exact applyPriceData_lookup_cases data t ts c
      | some p =>
          by_cases hp : p ≠ 0
          · rw [priceStep_pos data c t0 p hl hp]
            by_cases he : t0 = t
            · subst he
              refine Or.inr ⟨p, ?_, hp⟩
              exact applyPriceData_lookup_stable data t0 p hl ts _ (lookup_setPrice_self c t0 p)
            · cases applyPriceData_lookup_cases data t ts (setPrice c t0 p) with
              | inl h =>
                  rw [h, lookup_setPrice_ne c t0 t p (fun hc => he hc.symm)]
                  exact Or.inl rfl
              | inr h => exact Or.inr h
          · rw [priceStep_zero data c t0 p hl hp]
            exact applyPriceData_lookup_cases data t ts c

/-- C10: every configured native token is seeded with a nonzero static
fallback price at process start, and every price-cache transition preserves
the nonzero-price property, so a price lookup during aggregation never finds
an absent or zero price. -/
theorem price_table_never_zero :
    cacheNonzero configuredTokens initialPriceState.cache = true
    ∧ (∀ (s : PriceState) (now : ℤ) (tokens : List String) (o : PriceOutcome),
        cacheNonzero configuredTokens s.cache = true →
        cacheNonzero configuredTokens (fetchAllPricesStep now tokens o s).1.cache = true) := by
  constructor
  · rw [cacheNonzero_iff]
    intro t ht
    simp only [configuredTokens, FALLBACK_PRICES, initialPriceState] at ht ⊢
    fin_cases ht <;> refine ⟨_, rfl, by norm_num⟩
  · intro s now tokens o hs
    rw [cacheNonzero_iff] at hs ⊢
    intro t ht
    rw [fetchAllPricesStep.eq_def]
    by_cases hc : now - s.lastPriceFetch < 120000 ∧ 0 < s.lastPriceFetch
    · rw [if_pos hc]
      exact hs t ht
    · rw [if_neg hc]
      cases o with
      | netError => exact hs t ht
      | rateLimited => exact hs t ht
      | ok data =>
          show ∃ p, lookupStr t (applyPriceData tokens data s.cache) = some p ∧ p ≠ 0
          cases applyPriceData_lookup_cases data t tokens s.cache with
          | inl h =>
              obtain ⟨p, hp, hp0⟩ := hs t ht
              exact ⟨p, h.trans hp, hp0⟩
          | inr h => exact h

/-- Closed instance of the C10 theorem: the invariant holds after a failed
refresh from the seeded initial state. -/
theorem price_table_never_zero_witness :
    cacheNonzero configuredTokens
        (fetchAllPricesStep 999999 ["ethereum"] .netError initialPriceState).1.cache = true :=
  price_table_never_zero.2 initialPriceState 999999 ["ethereum"] .netError
    price_table_never_zero.1


theorem length_filter_mod_range (s : Nat) (hs : 0 < s) :
    ∀ n, ((List.range n).filter (fun i => decide (i % s = 0))).length = (n + s - 1) / s
  | 0 => by
      rw [List.range_zero, List.filter_nil, List.length_nil,
        Nat.div_eq_of_lt (by omega)]
  | n + 1 => by
      rw [List.range_succ, List.filter_append, List.length_append,
        length_filter_mod_range s hs n]
      have hstep : ([n].filter (fun i => decide (i % s = 0))).length
          = if s ∣ n then 1 else 0 := by
        by_cases hd : s ∣ n
        · have hm : n % s = 0 := Nat.dvd_iff_mod_eq_zero.mp hd
          simp [List.filter_cons, hm, hd]
        · have hm : ¬ (n % s = 0) := fun hc => hd (Nat.dvd_iff_mod_eq_zero.mpr hc)
          simp [List.filter_cons, hm, hd]
      rw [hstep]
      cases n with
      | zero =>
          have e1 : 0 + s - 1 = s - 1 := by omega
          have e2 : 0 + 1 + s - 1 = s := by omega
          rw [e1, e2, Nat.div_eq_of_lt (by omega), Nat.div_self hs]
          simp
      | succ m =>
          have h1 : m + 1 + s - 1 = m + s := by omega
          have h2 : m + 1 + 1 + s - 1 = m + 1 + s := by omega
          rw [h1, h2, Nat.add_div_right m hs, Nat.add_div_right (m + 1) hs,
            Nat.succ_div]
          by_cases hd : s ∣ m + 1 <;> simp [hd]

theorem length_filter_zip_fst {α : Type} (P : Nat → Bool) :
    ∀ (xs : List Nat) (ys : List α), xs.length = ys.length →
      ((xs.zip ys).filter (fun p => P p.1)).length = (xs.filter P).length
  | [], [], _ => rfl
  | [], _ :: _, h => by simp at h
  | _ :: _, [], h => by simp at h
  | x :: xs, y :: ys, h => by
      have h2 : xs.length = ys.length := by simpa using h
      by_cases hx : P x = true <;>
        simp [List.zip_cons_cons, List.filter_cons, hx,
          length_filter_zip_fst P xs ys h2]

theorem downsample_sublist {α : Type} (l : List α) : (downsample l).Sublist l := by
  rw [downsample]
  split
  · have hsub := (List.filter_sublist
      (p := fun p => decide (p.1 % ((l.length + 199) / 200) = 0)) l.enum).map Prod.snd
    rw [List.enum_map_snd] at hsub
    exact hsub
  · exact List.Sublist.refl l

theorem downsample_length_le {α : Type} (l : List α) : (downsample l).length ≤ 200 := by
  rw [downsample]
  split
  · rename_i hlen
    have hs : 0 < (l.length + 199) / 200 := Nat.div_pos (by omega) (by norm_num)
    rw [List.length_map, List.enum_eq_zip_range,
      length_filter_zip_fst (fun i => decide (i % ((l.length + 199) / 200) = 0))
        (List.range l.length) l (by rw [List.length_range]),
      length_filter_mod_range _ hs]
    have hmul : l.length ≤ 200 * ((l.length + 199) / 200) := by
      have hdm := Nat.div_add_mod (l.length + 199) 200
      have hmod : (l.length + 199) % 200 < 200 := Nat.mod_lt _ (by norm_num)
      omega
    have hlt : (l.length + (l.length + 199) / 200 - 1) / ((l.length + 199) / 200) < 201 := by
      rw [Nat.div_lt_iff_lt_mul hs]
      omega
    omega
  · rename_i hlen
    omega

theorem downsample_pairwise_map {α : Type} (f : α → ℚ) (l : List α)
    (h : (l.map f).Pairwise (fun a b => a ≤ b)) :
    ((downsample l).map f).Pairwise (fun a b => a ≤ b) :=
  List.Pairwise.sublist ((downsample_sublist l).map f) h

theorem addRowToGroup_keys (acc : List (ℚ × List (String × ℚ))) (r : GasRow) :
    (addRowToGroup acc r).map Prod.fst
      = if acc.any (fun e => decide (e.1 = r.timestamp)) then acc.map Prod.fst
        else acc.map Prod.fst ++ [r.timestamp] := by
  rw [addRowToGroup]
  split
  · rw [List.map_map]
    refine List.map_congr_left fun e _ => ?_
    show (if e.1 = r.timestamp
        then (e.1, setPrice e.2 r.chain r.swap_cost_usd) else e).1 = e.1
    split <;> rfl
  · rw [List.map_append]
    rfl

theorem foldl_addRow_keys_sorted :
    ∀ (rows : List GasRow) (acc : List (ℚ × List (String × ℚ))),
      (acc.map Prod.fst).Pairwise (fun a b => a < b) →
      (∀ k ∈ acc.map Prod.fst, ∀ r2 ∈ rows, k ≤ r2.timestamp) →
      rows.Pairwise (fun a b => a.timestamp ≤ b.timestamp) →
      ((rows.foldl addRowToGroup acc).map Prod.fst).Pairwise (fun a b => a < b)
  | [], _, hacc, _, _ => hacc
  | r :: rs, acc, hacc, hbound, hrows => by
      rw [List.foldl_cons]
      have hrows2 := List.pairwise_cons.mp hrows
      refine foldl_addRow_keys_sorted rs (addRowToGroup acc r) ?_ ?_ hrows2.2
      · rw [addRowToGroup_keys]
        split
        · exact hacc
        · rename_i hany
          rw [List.pairwise_append]
          refine ⟨hacc, List.pairwise_singleton _ _, fun k hk b hb => ?_⟩
          rw [List.mem_singleton] at hb
          subst hb
          have hle : k ≤ r.timestamp := hbound k hk r (List.mem_cons_self r rs)
          have hne : k ≠ r.timestamp := by
            intro hc
            obtain ⟨e, he, hke⟩ := List.mem_map.mp hk
            rw [List.any_eq_true] at hany
            exact hany ⟨e, he, by simp [hke, hc]⟩
          exact lt_of_le_of_ne hle hne
      · intro k hk r2 hr2
        rw [addRowToGroup_keys] at hk
        split at hk
        · exact hbound k hk r2 (List.mem_cons_of_mem r hr2)
        · cases List.mem_append.mp hk with
          | inl hh => exact hbound k hh r2 (List.mem_cons_of_mem r hr2)
          | inr hh =>
              rw [List.mem_singleton] at hh
              subst hh
              exact hrows2.1 r2 hr2

/-- C9: the history route clamps the retrieval window at 168 hours, and both
history queries return at most 200 points, ordered non-decreasing by
timestamp, for a table of any size. -/
theorem history_query_bounds (table : List GasRow) (chain : String) (now hours h : ℚ) :
    effectiveHours h ≤ 168
    ∧ (queryAllChainsHistory table now hours).length ≤ 200
    ∧ ((queryAllChainsHistory table now hours).map Prod.fst).Pairwise (fun a b => a ≤ b)
    ∧ (queryChainHistory table chain now hours).length ≤ 200
    ∧ ((queryChainHistory table chain now hours).map HistPoint.timestamp).Pairwise
        (fun a b => a ≤ b) := by
  refine ⟨min_le_right _ _, ?_, ?_, ?_, ?_⟩
  · rw [queryAllChainsHistory]
    split
    · norm_num
    · exact downsample_length_le _
  · rw [queryAllChainsHistory]
    split
    · exact List.Pairwise.nil
    · refine downsample_pairwise_map Prod.fst _ ?_
      have hsorted := sortByKey_sorted (fun r : GasRow => r.timestamp)
        (table.filter (fun r => decide (now - hours * 3600000 < r.timestamp)))
      have hkeys := foldl_addRow_keys_sorted
        (sqlSelectWindow table (now - hours * 3600000)) []
        List.Pairwise.nil (fun k hk => absurd hk (List.not_mem_nil k)) hsorted
      exact hkeys.imp le_of_lt
  · rw [queryChainHistory]
    split
    · norm_num
    · exact downsample_length_le _
  · rw [queryChainHistory]
    split
    · exact List.Pairwise.nil
    · refine downsample_pairwise_map HistPoint.timestamp _ ?_
      rw [List.map_map]
      have hsorted := sortByKey_sorted (fun r : GasRow => r.timestamp)
        (table.filter (fun r => decide (r.chain = chain)
          && decide (now - hours * 3600000 < r.timestamp)))
      exact List.pairwise_map.mpr hsorted


theorem fetchAllChainsGas_filter_notmem (gl bf : ℚ) (env : String → EndpointData)
    (prices : List (String × ℚ)) :
    ∀ (chains : List ChainConfig) (x : String), (∀ c ∈ chains, c.id ≠ x) →
      ((fetchAllChainsGas gl bf env prices chains).filter
        (fun r => decide (r.chain = x))).length = 0
  | [], _, _ => rfl
  | c :: cs, x, hx => by
      have htail : ∀ c2 ∈ cs, c2.id ≠ x := fun c2 h2 => hx c2 (List.mem_cons_of_mem c h2)
      have ih := fetchAllChainsGas_filter_notmem gl bf env prices cs x htail
      cases hg : getChainGasGwei env c with
      | none =>
          rw [fetchAllChainsGas, List.filterMap_cons, hg]
          simp only [Option.map_none']
          exact ih
      | some v =>
          rw [fetchAllChainsGas, List.filterMap_cons, hg]
          simp only [Option.map_some']
          rw [List.filter_cons,
            if_neg (by simpa [mkChainResult] using hx c (List.mem_cons_self c cs))]
          exact ih

theorem fetchAllChainsGas_count (gl bf : ℚ) (env : String → EndpointData)
    (prices : List (String × ℚ)) :
    ∀ (chains : List ChainConfig), (chains.map ChainConfig.id).Nodup →
      ∀ c ∈ chains,
        (getChainGasGwei env c = none →
          ((fetchAllChainsGas gl bf env prices chains).filter
            (fun r => decide (r.chain = c.id))).length = 0)
        ∧ (∀ v, getChainGasGwei env c = some v →
          ((fetchAllChainsGas gl bf env prices chains).filter
            (fun r => decide (r.chain = c.id))).length = 1
          ∧ mkChainResult gl bf prices c v ∈ fetchAllChainsGas gl bf env prices chains)
  | [], _, c, hc => absurd hc (List.not_mem_nil c)
  | c0 :: cs, hnd, c, hc => by
      have hnd2 : c0.id ∉ cs.map ChainConfig.id ∧ (cs.map ChainConfig.id).Nodup := by
        simpa [List.nodup_cons] using hnd
      cases List.mem_cons.mp hc with
      | inl hceq =>
          subst hceq
          have htail : ∀ c2 ∈ cs, c2.id ≠ c.id := fun c2 h2 he =>
            hnd2.1 (he ▸ List.mem_map_of_mem ChainConfig.id h2)
          constructor
          · intro hgc
            rw [fetchAllChainsGas, List.filterMap_cons, hgc]
            simp only [Option.map_none']
            exact fetchAllChainsGas_filter_notmem gl bf env prices cs c.id htail
          · intro v hgv
            rw [fetchAllChainsGas, List.filterMap_cons, hgv]
            simp only [Option.map_some']
            constructor
            · rw [List.filter_cons, if_pos (by simp [mkChainResult]), List.length_cons]
              have h0 := fetchAllChainsGas_filter_notmem gl bf env prices cs c.id htail
              rw [fetchAllChainsGas] at h0
              rw [h0]
            · exact List.mem_cons_self _ _
      | inr hcs =>
          have ihtail := fetchAllChainsGas_count gl bf env prices cs hnd2.2 c hcs
          have hne : c0.id ≠ c.id := fun he =>
            hnd2.1 (he ▸ List.mem_map_of_mem ChainConfig.id hcs)
          cases hg0 : getChainGasGwei env c0 with
          | none =>
              rw [fetchAllChainsGas, List.filterMap_cons, hg0]
              simp only [Option.map_none']
              exact ihtail
          | some v0 =>
              rw [fetchAllChainsGas, List.filterMap_cons, hg0]
              simp only [Option.map_some']
              refine ⟨fun hgc => ?_, fun v hgv => ⟨?_, ?_⟩⟩
              · rw [List.filter_cons, if_neg (by simpa [mkChainResult] using hne)]
                exact ihtail.1 hgc
              · rw [List.filter_cons, if_neg (by simpa [mkChainResult] using hne)]
                exact (ihtail.2 v hgv).1
              · exact List.mem_cons_of_mem _ (ihtail.2 v hgv).2

/-- C5 counterexample: a Solana chain with priority fee 7 micro-lamports per
compute unit, 1 signature, 300000 compute units, base fee 5000 lamports and
token price 150 produces a swap cost of 750315 / 1000000000 dollars, which
is not the value of the formula without the micro-lamport to lamport
conversion of the priority component. -/
theorem aggregator_cost_counterexample :
    ((fetchAllChainsGas 300000 5000
        (fun _ => { gasPrice := none, feeHistory := none, solFees := some [7] })
        [("solana", 150)]
        [{ id := "solana", name := "Solana", color := "#9945ff",
           nativeToken := "solana", nativeTokenSymbol := "SOL",
           rpcUrl := "s1", rpcFallbacks := none, chainType := some "solana",
           isEIP1559 := none, signaturesPerSwap := some 1,
           computeUnitsPerSwap := some 300000 }]).map ChainGasResult.swapCostUsd)
      = [750315 / 1000000000]
    ∧ (750315 / 1000000000 : ℚ)
      ≠ max ((5000 * 1 + 7 * 300000) / 1000000000 * 150) 0 := by
  have hres : resolveAt
      { id := "solana", name := "Solana", color := "#9945ff",
        nativeToken := "solana", nativeTokenSymbol := "SOL",
        rpcUrl := "s1", rpcFallbacks := none, chainType := some "solana",
        isEIP1559 := none, signaturesPerSwap := some 1,
        computeUnitsPerSwap := some 300000 }
      { gasPrice := none, feeHistory := none, solFees := some [7] } = some 7 := by
    show some ((fetchSolanaGas [7] : Int) : ℚ) = some 7
    norm_num [fetchSolanaGas, sortByKey, List.insertionSort, List.orderedInsert]
  have hg : getChainGasGwei
      (fun _ => { gasPrice := none, feeHistory := none, solFees := some [7] })
      { id := "solana", name := "Solana", color := "#9945ff",
        nativeToken := "solana", nativeTokenSymbol := "SOL",
        rpcUrl := "s1", rpcFallbacks := none, chainType := some "solana",
        isEIP1559 := none, signaturesPerSwap := some 1,
        computeUnitsPerSwap := some 300000 } = some 7 := by
    rw [getChainGasGwei]
    show List.findSome? _ ["s1"] = some 7
    rw [List.findSome?_cons]
    simp [hres]
  constructor
  · rw [fetchAllChainsGas, List.filterMap_cons, List.filterMap_nil, hg]
    simp only [Option.map_some', List.map_cons, List.map_nil]
    refine congrArg (fun q => [q]) ?_
    show max ((5000 * 1 + 7 * 300000 / 1000000) / 1000000000
        * ((lookupStr "solana" [("solana", 150)]).getD 0)) 0 = 750315 / 1000000000
    rw [show lookupStr "solana" [("solana", 150)] = some 150 from rfl]
    rw [max_eq_left (by norm_num)]
    norm_num
  · rw [max_eq_left (by norm_num)]
    norm_num

/-- C5 as amended: each aggregation pass yields exactly one entry per
configured chain whose resolver returned a value and none for a chain whose
resolver returned null, one chain not affecting the others; each entry
carries the family-specific swap cost (EVM: fee times swap gas limit over
1e9, times price; Solana: base signature fee times signatures plus priority
fee times compute units over 1e6 micro-lamports to lamports, all over 1e9
lamports to SOL, times price), clamped at a floor of zero. -/
theorem aggregator_output (gl bf : ℚ) (env : String → EndpointData)
    (prices : List (String × ℚ)) (chains : List ChainConfig)
    (hnd : (chains.map ChainConfig.id).Nodup) :
    (∀ c ∈ chains, getChainGasGwei env c = none →
        ((fetchAllChainsGas gl bf env prices chains).filter
          (fun r => decide (r.chain = c.id))).length = 0)
    ∧ (∀ c ∈ chains, ∀ v, getChainGasGwei env c = some v →
        ((fetchAllChainsGas gl bf env prices chains).filter
          (fun r => decide (r.chain = c.id))).length = 1
        ∧ mkChainResult gl bf prices c v ∈ fetchAllChainsGas gl bf env prices chains)
    ∧ (∀ r ∈ fetchAllChainsGas gl bf env prices chains, 0 ≤ r.swapCostUsd)
    ∧ (∀ (c : ChainConfig) (v : ℚ),
        (mkChainResult gl bf prices c v).swapCostUsd
          = max (if isSolana c
              then (bf * c.signaturesPerSwap.getD 1
                  + v * c.computeUnitsPerSwap.getD 300000 / 1000000) / 1000000000
                  * (lookupStr c.nativeToken prices).getD 0
              else v * gl / 1000000000 * (lookupStr c.nativeToken prices).getD 0) 0) := by
  refine ⟨fun c hc => (fetchAllChainsGas_count gl bf env prices chains hnd c hc).1,
    fun c hc => (fetchAllChainsGas_count gl bf env prices chains hnd c hc).2,
    fun r hr => ?_, fun c v => rfl⟩
  obtain ⟨c, hc, hfc⟩ := List.mem_filterMap.mp hr
  obtain ⟨v, hv, hmk⟩ := Option.map_eq_some'.mp hfc
  rw [← hmk]
  exact le_max_right _ 0

/-- Closed instance of the amended C5 theorem: in a two-chain batch where
one chain fails entirely, the failed chain is absent and the other chain is
present with its computed record. -/
theorem aggregator_output_witness :
    ((fetchAllChainsGas 300000 5000
        (fun r => if r = "s1"
          then { gasPrice := none, feeHistory := none, solFees := some [7] }
          else { gasPrice := none, feeHistory := none, solFees := none })
        [("solana", 150)]
        [{ id := "solana", name := "Solana", color := "#9945ff",
           nativeToken := "solana", nativeTokenSymbol := "SOL",
           rpcUrl := "s1", rpcFallbacks := none, chainType := some "solana",
           isEIP1559 := none, signaturesPerSwap := some 1,
           computeUnitsPerSwap := some 300000 },
         { id := "badchain", name := "Bad", color := "#000000",
           nativeToken := "ethereum", nativeTokenSymbol := "ETH",
           rpcUrl := "b1", rpcFallbacks := some ["b2"], chainType := none,
           isEIP1559 := some true, signaturesPerSwap := none,
           computeUnitsPerSwap := none }]).filter
      (fun r => decide (r.chain = "badchain"))).length = 0
    ∧ mkChainResult 300000 5000 [("solana", 150)]
        { id := "solana", name := "Solana", color := "#9945ff",
          nativeToken := "solana", nativeTokenSymbol := "SOL",
          rpcUrl := "s1", rpcFallbacks := none, chainType := some "solana",
          isEIP1559 := none, signaturesPerSwap := some 1,
          computeUnitsPerSwap := some 300000 } 7
      ∈ fetchAllChainsGas 300000 5000
        (fun r => if r = "s1"
          then { gasPrice := none, feeHistory := none, solFees := some [7] }
          else { gasPrice := none, feeHistory := none, solFees := none })
        [("solana", 150)]
        [{ id := "solana", name := "Solana", color := "#9945ff",
           nativeToken := "solana", nativeTokenSymbol := "SOL",
           rpcUrl := "s1", rpcFallbacks := none, chainType := some "solana",
           isEIP1559 := none, signaturesPerSwap := some 1,
           computeUnitsPerSwap := some 300000 },
         { id := "badchain", name := "Bad", color := "#000000",
           nativeToken := "ethereum", nativeTokenSymbol := "ETH",
           rpcUrl := "b1", rpcFallbacks := some ["b2"], chainType := none,
           isEIP1559 := some true, signaturesPerSwap := none,
           computeUnitsPerSwap := none }] := by
  have h := aggregator_output 300000 5000
    (fun r => if r = "s1"
      then { gasPrice := none, feeHistory := none, solFees := some [7] }
      else { gasPrice := none, feeHistory := none, solFees := none })
    [("solana", 150)]
    [{ id := "solana", name := "Solana", color := "#9945ff",
       nativeToken := "solana", nativeTokenSymbol := "SOL",
       rpcUrl := "s1", rpcFallbacks := none, chainType := some "solana",
       isEIP1559 := none, signaturesPerSwap := some 1,
       computeUnitsPerSwap := some 300000 },
     { id := "badchain", name := "Bad", color := "#000000",
       nativeToken := "ethereum", nativeTokenSymbol := "ETH",
       rpcUrl := "b1", rpcFallbacks := some ["b2"], chainType := none,
       isEIP1559 := some true, signaturesPerSwap := none,
       computeUnitsPerSwap := none }] (by decide)
  have hres : resolveAt
      { id := "solana", name := "Solana", color := "#9945ff",
        nativeToken := "solana", nativeTokenSymbol := "SOL",
        rpcUrl := "s1", rpcFallbacks := none, chainType := some "solana",
        isEIP1559 := none, signaturesPerSwap := some 1,
        computeUnitsPerSwap := some 300000 }
      { gasPrice := none, feeHistory := none, solFees := some [7] } = some 7 := by
    show some ((fetchSolanaGas [7] : Int) : ℚ) = some 7
    norm_num [fetchSolanaGas, sortByKey, List.insertionSort, List.orderedInsert]
  have hsome : getChainGasGwei
      (fun r => if r = "s1"
        then { gasPrice := none, feeHistory := none, solFees := some [7] }
        else { gasPrice := none, feeHistory := none, solFees := none })
      { id := "solana", name := "Solana", color := "#9945ff",
        nativeToken := "solana", nativeTokenSymbol := "SOL",
        rpcUrl := "s1", rpcFallbacks := none, chainType := some "solana",
        isEIP1559 := none, signaturesPerSwap := some 1,
        computeUnitsPerSwap := some 300000 } = some 7 := by
    rw [getChainGasGwei]
    show List.findSome? _ ["s1"] = some 7
    rw [List.findSome?_cons]
    simp [hres]
  exact ⟨h.1 _ (List.mem_cons_of_mem _ (List.mem_cons_self _ _)) rfl,
    (h.2.1 _ (List.mem_cons_self _ _) 7 hsome).2⟩

end GasPass
